import Mathlib

/- Shallow embedding of src/src/utils/couchbase_db.rs (inventyv_datalayer_cb).

   The remote Couchbase store is abstracted by oracles:
   - a single read is `Except String GetResult`: either the driver error
     (converted to a string, as the code does with error.to_string()) or a
     fetched document, whose raw content may or may not decode as JSON
     (get_result.content is recorded as `Option Json`, `none` meaning the
     bytes do not decode; the code calls .content::<Value>().unwrap() there);
   - batch reads consult a call-indexed oracle `fetch : Nat -> String ->
     Except String GetResult`, one entry per sequential db.get call, since
     each loop iteration is an independent network call;
   - write attempts of the retried operations consult an attempt-indexed
     oracle `attempts : Nat -> Except String Unit`.

   A Rust panic (the unwrap on undecodable content) is modelled by the
   functions returning `Option (...)` with `none` standing for the panic.
   Integer JSON numbers are modelled as unbounded integers; wherever the
   code deserializes i64 (the counter's content at i64), the i64 range
   check is applied explicitly. A non-integer (floating-point) JSON number
   is carried by the fnum constructor as its literal text: no code path in
   this file inspects its numeric value — the only inspection of numbers,
   the counter's content at i64, rejects it. -/

inductive Json where
  | null : Json
  | bool : Bool → Json
  | num : Int → Json
  | fnum : String → Json
  | str : String → Json
  | arr : List Json → Json
  | obj : List (String × Json) → Json

/-- One successful db.get result: raw content (decoded JSON, when the bytes
decode) and the CAS revision token (u64 in the driver). -/
structure GetResult where
  content : Option Json
  cas : Nat

/-- Association-list lookup, standing for HashMap lookup. -/
def lookupA {α : Type} : List (String × α) → String → Option α
  | [], _ => none
  | (k, v) :: rest, j => if k = j then some v else lookupA rest j

/-- Association-list insert with HashMap semantics: replace the entry if the
key is present, append otherwise. -/
def insertA {α : Type} : List (String × α) → String → α → List (String × α)
  | [], k, v => [(k, v)]
  | (k0, v0) :: rest, k, v =>
    if k0 = k then (k, v) :: rest else (k0, v0) :: insertA rest k v

/-- Rust Debug rendering of a string, as produced by the format specifier
used on error strings (escapes are not modelled; the strings involved are
plain). -/
def rustDebugStr (s : String) : String := "\"" ++ s ++ "\""

/-- Rust Debug rendering of a Vec of strings. -/
def rustDebugKeys (keys : List String) : String :=
  "[" ++ String.intercalate ", " (keys.map rustDebugStr) ++ "]"

/-- Rust Debug rendering of the per-key error map built by the batch loops;
every value in that map has the shape json of obj containing a single
"error" field holding the error string. -/
def errMapDebug (errors : List (String × String)) : String :=
  "\x7b" ++ String.intercalate ", "
    (errors.map fun p =>
      rustDebugStr p.1 ++ ": Object \x7b\"error\": String(" ++ rustDebugStr p.2 ++ ")\x7d")
  ++ "\x7d"

/-- The aggregated failure message of get_documents. -/
def batchErrMsg (keys : List String) (errors : List (String × String)) : String :=
  "Error occured while fetching documents " ++ rustDebugKeys keys ++ " :  " ++ errMapDebug errors

/-- The formatted bucket-connection failure of the batch and counter
functions. -/
def bucketConnErr (err : String) : String :=
  "Error in getting bucket connection : " ++ rustDebugStr err

/-- The empty-key-list validation error of both batch functions. -/
def emptyKeysErr : String := "Array of Keys need to be on length>0"

/-- CAS wrapping used by get_document: the cas is stringified
(get_result.cas().to_string()). -/
def casWrapDoc (withCas : Bool) (data : Json) (cas : Nat) : Json :=
  if withCas then Json.obj [("value", data), ("cas", Json.str (toString cas))] else data

/-- CAS wrapping used by the two batch loops: the cas is serialized as a
JSON number (json contains res.cas() directly). -/
def casWrapBatch (withCas : Bool) (data : Json) (cas : Nat) : Json :=
  if withCas then Json.obj [("value", data), ("cas", Json.num (Int.ofNat cas))] else data

/-- get_document: resolve the bucket, one read attempt, decode (panic when
the content does not decode), optionally wrap with the stringified cas. -/
def get_document (conn : Except String Unit) (store : String → Except String GetResult)
    (key : String) (with_cas : Bool) : Option (Except String Json) :=
  match conn with
  | .error err => some (.error err)
  | .ok _ =>
    match store key with
    | .ok r =>
      match r.content with
      | none => none
      | some data => some (.ok (casWrapDoc with_cas data r.cas))
    | .error e => some (.error e)

/-- The shared sequential loop of get_documents and get_documents_v2:
successes go into docs, failures into errors; an undecodable success
panics the whole call. -/
def batch_loop (fetch : Nat → String → Except String GetResult) (with_cas : Bool) :
    Nat → List String → List (String × Json) → List (String × String) →
    Option (List (String × Json) × List (String × String))
  | _, [], docs, errors => some (docs, errors)
  | idx, k :: rest, docs, errors =>
    match fetch idx k with
    | .ok r =>
      match r.content with
      | none => none
      | some data =>
        batch_loop fetch with_cas (idx + 1) rest
          (insertA docs k (casWrapBatch with_cas data r.cas)) errors
    | .error e => batch_loop fetch with_cas (idx + 1) rest docs (insertA errors k e)

/-- get_documents (strict batch): all-or-nothing aggregation. -/
def get_documents (conn : Except String Unit)
    (fetch : Nat → String → Except String GetResult)
    (keys : List String) (with_cas : Bool) : Option (Except String Json) :=
  match conn with
  | .error err => some (.error (bucketConnErr err))
  | .ok _ =>
    if keys = [] then some (.error emptyKeysErr)
    else
      match batch_loop fetch with_cas 0 keys [] [] with
      | none => none
      | some (docs, errors) =>
        if errors = [] then some (.ok (Json.obj docs))
        else some (.error (batchErrMsg keys errors))

/-- The JSON value returned by get_documents_v2: the docs map and the errors
map, each error re-wrapped as obj containing one "error" string field. -/
def v2Result (docs : List (String × Json)) (errors : List (String × String)) : Json :=
  Json.obj [("docs", Json.obj docs),
            ("errors", Json.obj (errors.map fun p => (p.1, Json.obj [("error", Json.str p.2)])))]

/-- get_documents_v2 (best-effort batch): same loop, but always returns both
maps. -/
def get_documents_v2 (conn : Except String Unit)
    (fetch : Nat → String → Except String GetResult)
    (keys : List String) (with_cas : Bool) : Option (Except String Json) :=
  match conn with
  | .error err => some (.error (bucketConnErr err))
  | .ok _ =>
    if keys = [] then some (.error emptyKeysErr)
    else
      match batch_loop fetch with_cas 0 keys [] [] with
      | none => none
      | some (docs, errors) => some (.ok (v2Result docs errors))

/-- Keys having at least one failing read among their occurrences, in
request order (first failing occurrence decides membership position). -/
def failKeys (fetch : Nat → String → Except String GetResult) : Nat → List String → List String
  | _, [] => []
  | idx, k :: rest =>
    match fetch idx k with
    | .error _ => k :: failKeys fetch (idx + 1) rest
    | .ok _ => failKeys fetch (idx + 1) rest

/-- Keys having at least one succeeding read among their occurrences. -/
def okKeys (fetch : Nat → String → Except String GetResult) : Nat → List String → List String
  | _, [] => []
  | idx, k :: rest =>
    match fetch idx k with
    | .ok _ => k :: okKeys fetch (idx + 1) rest
    | .error _ => okKeys fetch (idx + 1) rest

/-- True when some read in the pass succeeds at the store level but its
content does not decode — the situation in which the loop panics. -/
def hasPanic (fetch : Nat → String → Except String GetResult) : Nat → List String → Bool
  | _, [] => false
  | idx, k :: rest =>
    (match fetch idx k with
     | .ok r => r.content.isNone
     | .error _ => false) || hasPanic fetch (idx + 1) rest

/-- Boolean success test on Except, mirroring Result::is_ok. -/
def isOkE {ε α : Type} : Except ε α → Bool
  | .ok _ => true
  | .error _ => false

/-- The annotated error built by add_document once the retry budget is
exhausted. -/
def addRetryErr (err : String) : String :=
  "Error in adding data to couchbase : " ++ rustDebugStr err ++ "... retry limit reached"

/-- The annotated error built by replace_document once the retry budget is
exhausted. -/
def replRetryErr (err : String) : String :=
  "Error in updating data to couchbase : " ++ rustDebugStr err ++ "... retry limit reached"

/-- The success message of replace_document. -/
def replaceMsg (key bucket_name : String) : String :=
  "Data successfully updated to couchbase for key: " ++ key ++ " in bucket : " ++ bucket_name

/-- The recursive body of add_document, together with the number of insert
attempts issued: one attempt; on failure, if the budget is 0 the annotated
error is returned, otherwise (after the 1-second sleep, not modelled) the
call recurses with budget - 1, and returns Ok(true) when the recursion
succeeded, else the CURRENT attempt's plain error string. -/
def add_document_run (attempts : Nat → Except String Unit) :
    Nat → Nat → Except String Bool × Nat
  | idx, retry =>
    match attempts idx with
    | .ok _ => (.ok true, 1)
    | .error error =>
      match retry with
      | 0 => (.error (addRetryErr error), 1)
      | r + 1 =>
        let res := add_document_run attempts (idx + 1) r
        ((if isOkE res.1 then .ok true else .error error), res.2 + 1)

/-- add_document: default budget 5; a bucket-connection failure is returned
as-is before any attempt. -/
def add_document (conn : Except String Unit) (attempts : Nat → Except String Unit)
    (retry : Option Nat) : Except String Bool :=
  match conn with
  | .error err => .error err
  | .ok _ => (add_document_run attempts 0 (retry.getD 5)).1

/-- The recursive body of replace_document with its attempt count; identical
retry structure to add_document, but the success value is the formatted
message (rebuilt after a successful recursive retry). The cas option and the
value only shape the store call, which the attempts oracle abstracts. -/
def replace_document_run (key bucket_name : String) (attempts : Nat → Except String Unit) :
    Nat → Nat → Except String String × Nat
  | idx, retry =>
    match attempts idx with
    | .ok _ => (.ok (replaceMsg key bucket_name), 1)
    | .error error =>
      match retry with
      | 0 => (.error (replRetryErr error), 1)
      | r + 1 =>
        let res := replace_document_run key bucket_name attempts (idx + 1) r
        ((if isOkE res.1 then .ok (replaceMsg key bucket_name) else .error error), res.2 + 1)

/-- replace_document: default budget 5. -/
def replace_document (conn : Except String Unit) (key bucket_name : String)
    (attempts : Nat → Except String Unit) (retry : Option Nat) : Except String String :=
  match conn with
  | .error err => .error err
  | .ok _ => (replace_document_run key bucket_name attempts 0 (retry.getD 5)).1

/-- The bounds of Rust's i64. -/
def i64Min : Int := -(2 ^ 63)

def i64Max : Int := 2 ^ 63 - 1

/-- Digit run of Rust str::parse applied at i64: at least one digit, all
characters digits. -/
def digitsVal : List Char → Option Nat
  | [] => none
  | cs =>
    cs.foldl
      (fun acc c =>
        match acc with
        | none => none
        | some n => if c.isDigit then some (n * 10 + (c.toNat - 48)) else none)
      (some 0)

/-- Rust str::parse at i64: optional sign followed by at least one digit,
failing when the value does not fit in i64 (overflow is a parse failure in
Rust, which the counter code then defaults to 0 via unwrap_or). -/
def parse_i64 (s : String) : Option Int :=
  match s.data with
  | '+' :: rest =>
    (digitsVal rest).bind fun n => if (n : Int) ≤ i64Max then some (Int.ofNat n) else none
  | '-' :: rest =>
    (digitsVal rest).bind fun n => if i64Min ≤ -(n : Int) then some (-(n : Int)) else none
  | cs =>
    (digitsVal cs).bind fun n => if (n : Int) ≤ i64Max then some (Int.ofNat n) else none

/-- The counter-extraction chain of get_next_counter_key: doc.content at i64
succeeds exactly on an integer JSON number within i64 range (an out-of-range
or non-integer number fails i64 deserialization); otherwise doc.content at
String succeeds on a JSON string, whose parse failure is defaulted to 0 by
unwrap_or(0); anything else (other JSON shapes, numbers that are not an
in-range integer, or undecodable bytes) is rejected. -/
def counter_of_content : Option Json → Option Int
  | some (.num n) => if i64Min ≤ n ∧ n ≤ i64Max then some n else none
  | some (.str s) => some ((parse_i64 s).getD 0)
  | _ => none

/-- get_next_counter_key over oracles: `read` is the db.get outcome (with
the decoded content when the bytes decode), `upsert` the db.upsert outcome.
The second component records the value written by a successful upsert
(`none` when nothing was written). A failed read of ANY kind takes the
create-fresh branch. -/
def get_next_counter_key (conn : Except String Unit)
    (read : Except String (Option Json)) (upsert : Except String Unit)
    (initial_counter : Option Nat) : Except String String × Option Json :=
  match conn with
  | .error err => (.error (bucketConnErr err), none)
  | .ok _ =>
    match read with
    | .ok content =>
      match initial_counter with
      | some initial =>
        match upsert with
        | .ok _ => (.ok (toString initial), some (Json.num (Int.ofNat initial)))
        | .error e => (.error e, none)
      | none =>
        match counter_of_content content with
        | some counter =>
          match upsert with
          | .ok _ => (.ok (toString (counter + 1)), some (Json.num (counter + 1)))
          | .error e => (.error e, none)
        | none => (.error "Invalid counter format", none)
    | .error _ =>
      match upsert with
      | .ok _ =>
        (.ok (toString (Int.ofNat ((initial_counter).getD 1))),
         some (Json.num (Int.ofNat ((initial_counter).getD 1))))
      | .error e => (.error e, none)

/-- get_next_counter_key run against an explicit document store in which the
read succeeds exactly when the key is present and every upsert succeeds;
returns the result and the updated store. -/
def counterOnStore (σ : String → Option Json) (key : String)
    (initial_counter : Option Nat) : Except String String × (String → Option Json) :=
  let read : Except String (Option Json) :=
    match σ key with
    | some v => .ok (some v)
    | none => .error "document not found"
  let out := get_next_counter_key (.ok ()) read (.ok ()) initial_counter
  (out.1, fun j => match out.2 with
                   | some v => if j = key then some v else σ j
                   | none => σ j)

/-- State of the connection layer: how many times the lazily-initialized
cluster connection has been constructed, the bucket-handle cache, and a
counter supplying fresh handle identities. -/
structure ConnState where
  clusterCount : Nat
  cache : List (String × Nat)
  nextHandle : Nat

/-- Forcing the lazy CB_CONNECTION static: constructs the cluster connection
only if it has never been constructed. -/
def forceCluster (st : ConnState) : ConnState :=
  if st.clusterCount = 0 then { st with clusterCount := st.clusterCount + 1 } else st

/-- get_bucket_connection: return the cached handle when present; otherwise
force the cluster connection, derive a fresh bucket handle and insert it
into the cache. (The Result wrapper of the source never carries an error:
every error path in it is commented out.) -/
def get_bucket_connection (bucket_name : String) (st : ConnState) : Nat × ConnState :=
  match lookupA st.cache bucket_name with
  | some h => (h, st)
  | none =>
    let st1 := forceCluster st
    (st1.nextHandle,
     { clusterCount := st1.clusterCount,
       cache := (bucket_name, st1.nextHandle) :: st1.cache,
       nextHandle := st1.nextHandle + 1 })

/-- Whether pat occurs at the start of the text (character lists). -/
def startsWithL : List Char → List Char → Bool
  | [], _ => true
  | _ :: _, [] => false
  | c :: cs, d :: ds => (c = d) && startsWithL cs ds

/-- Whether pat occurs anywhere inside the text (character lists). -/
def occursInL (pat : List Char) : List Char → Bool
  | [] => startsWithL pat []
  | d :: ds => startsWithL pat (d :: ds) || occursInL pat ds

/-- Substring test used only to state that an error string does or does not
carry an annotation. -/
def containsSub (pat s : String) : Bool := occursInL pat.data s.data

/-- Fetch oracle used for concrete instances: the first read succeeds with
the number 7, every later read times out. -/
def fetchDup : Nat → String → Except String GetResult :=
  fun i _ => if i = 0 then .ok ⟨some (Json.num 7), 9⟩ else .error "timeout"

/-- Store used for concrete instances: every key holds the number 5 at cas
revision 42. -/
def storeAllNum : String → Except String GetResult :=
  fun _ => .ok ⟨some (Json.num 5), 42⟩

theorem lookupA_insertA_self {α : Type} (m : List (String × α)) (k : String) (v : α) :
    lookupA (insertA m k v) k = some v := by
  induction m with
  | nil => simp [insertA, lookupA]
  | cons p rest ih =>
    obtain ⟨k0, v0⟩ := p
    by_cases h : k0 = k
    · simp [insertA, h, lookupA]
    · simp [insertA, h, lookupA, ih]

theorem lookupA_insertA_ne {α : Type} (m : List (String × α)) (k j : String) (v : α)
    (h : k ≠ j) : lookupA (insertA m k v) j = lookupA m j := by
  induction m with
  | nil => simp [insertA, lookupA, h]
  | cons p rest ih =>
    obtain ⟨k0, v0⟩ := p
    by_cases h0 : k0 = k
    · subst h0
      simp [insertA, lookupA, h]
    · simp [insertA, h0, lookupA, ih]

theorem eq_nil_of_lookupA_none {α : Type} (m : List (String × α))
    (h : ∀ j, lookupA m j = none) : m = [] := by
  cases m with
  | nil => rfl
  | cons p rest =>
    have := h p.1
    simp [lookupA] at this

theorem batch_loop_none_iff (fetch : Nat → String → Except String GetResult) (wc : Bool) :
    ∀ (keys : List String) (idx : Nat) docs errors,
      batch_loop fetch wc idx keys docs errors = none ↔ hasPanic fetch idx keys = true := by
  intro keys
  induction keys with
  | nil => intro idx docs errors; simp [batch_loop, hasPanic]
  | cons k rest ih =>
    intro idx docs errors
    simp only [batch_loop, hasPanic]
    cases hf : fetch idx k with
    | ok r =>
      cases hc : r.content with
      | none => simp [hc]
      | some d => simp [hc, ih]
    | error e => simp [ih]

theorem batch_loop_errors_char (fetch : Nat → String → Except String GetResult) (wc : Bool) :
    ∀ (keys : List String) (idx : Nat) docs errors D E,
      batch_loop fetch wc idx keys docs errors = some (D, E) →
      ∀ j, (lookupA E j).isSome = true ↔
        ((lookupA errors j).isSome = true ∨ j ∈ failKeys fetch idx keys) := by
  intro keys
  induction keys with
  | nil =>
    intro idx docs errors D E h j
    simp only [batch_loop, Option.some.injEq, Prod.mk.injEq] at h
    obtain ⟨hD, hE⟩ := h
    subst hD; subst hE
    simp [failKeys]
  | cons k rest ih =>
    intro idx docs errors D E h j
    simp only [batch_loop] at h
    split at h
    next r heq =>
      split at h
      next hc => simp at h
      next d hc =>
        have := ih (idx + 1) _ _ D E h j
        simp [failKeys, heq, this]
    next e heq =>
      have := ih (idx + 1) _ _ D E h j
      by_cases hjk : k = j
      · subst hjk
        simp [failKeys, heq, this, lookupA_insertA_self]
      · simp [failKeys, heq, this, lookupA_insertA_ne _ _ _ _ hjk, Ne.symm hjk]

theorem batch_loop_docs_char (fetch : Nat → String → Except String GetResult) (wc : Bool) :
    ∀ (keys : List String) (idx : Nat) docs errors D E,
      batch_loop fetch wc idx keys docs errors = some (D, E) →
      ∀ j, (lookupA D j).isSome = true ↔
        ((lookupA docs j).isSome = true ∨ j ∈ okKeys fetch idx keys) := by
  intro keys
  induction keys with
  | nil =>
    intro idx docs errors D E h j
    simp only [batch_loop, Option.some.injEq, Prod.mk.injEq] at h
    obtain ⟨hD, hE⟩ := h
    subst hD; subst hE
    simp [okKeys]
  | cons k rest ih =>
    intro idx docs errors D E h j
    simp only [batch_loop] at h
    split at h
    next r heq =>
      split at h
      next hc => simp at h
      next d hc =>
        have := ih (idx + 1) _ _ D E h j
        by_cases hjk : k = j
        · subst hjk
          simp [okKeys, heq, this, lookupA_insertA_self]
        · simp [okKeys, heq, this, lookupA_insertA_ne _ _ _ _ hjk, Ne.symm hjk]
    next e heq =>
      have := ih (idx + 1) _ _ D E h j
      simp [okKeys, heq, this]

theorem mem_okKeys_or_failKeys (fetch : Nat → String → Except String GetResult) :
    ∀ (keys : List String) (idx : Nat) (j : String),
      j ∈ keys ↔ (j ∈ okKeys fetch idx keys ∨ j ∈ failKeys fetch idx keys) := by
  intro keys
  induction keys with
  | nil => intro idx j; simp [okKeys, failKeys]
  | cons k rest ih =>
    intro idx j
    cases hf : fetch idx k with
    | ok r => simp [okKeys, failKeys, hf, ih (idx + 1) j, or_assoc]
    | error e =>
      simp only [okKeys, failKeys, hf, List.mem_cons, ih (idx + 1) j]
      tauto

theorem batch_loop_no_fail (fetch : Nat → String → Except String GetResult) (wc : Bool) :
    ∀ (keys : List String) (idx : Nat) docs errors D E,
      failKeys fetch idx keys = [] →
      batch_loop fetch wc idx keys docs errors = some (D, E) → E = errors := by
  intro keys
  induction keys with
  | nil =>
    intro idx docs errors D E hfail h
    simp only [batch_loop, Option.some.injEq, Prod.mk.injEq] at h
    exact h.2.symm
  | cons k rest ih =>
    intro idx docs errors D E hfail h
    simp only [batch_loop] at h
    split at h
    next r heq =>
      split at h
      next hc => simp at h
      next d hc =>
        simp only [failKeys, heq] at hfail
        exact ih (idx + 1) _ _ D E hfail h
    next e heq => simp [failKeys, heq] at hfail

theorem batch_loop_not_mem (fetch : Nat → String → Except String GetResult) (wc : Bool) :
    ∀ (keys : List String) (idx : Nat) docs errors D E,
      batch_loop fetch wc idx keys docs errors = some (D, E) →
      ∀ j, j ∉ keys → lookupA D j = lookupA docs j ∧ lookupA E j = lookupA errors j := by
  intro keys
  induction keys with
  | nil =>
    intro idx docs errors D E h j _
    simp only [batch_loop, Option.some.injEq, Prod.mk.injEq] at h
    rw [h.1, h.2]
    exact ⟨rfl, rfl⟩
  | cons k rest ih =>
    intro idx docs errors D E h j hj
    have hjk : k ≠ j := fun hkj => hj (hkj ▸ List.mem_cons_self k rest)
    have hjr : j ∉ rest := fun hr => hj (List.mem_cons_of_mem k hr)
    simp only [batch_loop] at h
    split at h
    next r heq =>
      split at h
      next hc => simp at h
      next d hc =>
        have := ih (idx + 1) _ _ D E h j hjr
        rw [this.1, this.2, lookupA_insertA_ne _ _ _ _ hjk]
        exact ⟨rfl, rfl⟩
    next e heq =>
      have := ih (idx + 1) _ _ D E h j hjr
      rw [this.1, this.2, lookupA_insertA_ne _ _ _ _ hjk]
      exact ⟨rfl, rfl⟩

theorem batch_loop_disjoint (fetch : Nat → String → Except String GetResult) (wc : Bool) :
    ∀ (keys : List String) (idx : Nat) docs errors D E,
      keys.Nodup →
      (∀ j, ¬((lookupA docs j).isSome = true ∧ (lookupA errors j).isSome = true)) →
      (∀ j, j ∈ keys → lookupA docs j = none ∧ lookupA errors j = none) →
      batch_loop fetch wc idx keys docs errors = some (D, E) →
      ∀ j, ¬((lookupA D j).isSome = true ∧ (lookupA E j).isSome = true) := by
  intro keys
  induction keys with
  | nil =>
    intro idx docs errors D E _ hdisj _ h
    simp only [batch_loop, Option.some.injEq, Prod.mk.injEq] at h
    rw [h.1, h.2] at hdisj
    exact hdisj
  | cons k rest ih =>
    intro idx docs errors D E hnd hdisj hfresh h
    have hknr : k ∉ rest := (List.nodup_cons.mp hnd).1
    have hndr : rest.Nodup := (List.nodup_cons.mp hnd).2
    simp only [batch_loop] at h
    split at h
    next r heq =>
      split at h
      next hc => simp at h
      next d hc =>
        refine ih (idx + 1) _ _ D E hndr ?_ ?_ h
        · intro j
          by_cases hjk : k = j
          · subst hjk
            rw [(hfresh k (List.mem_cons_self k rest)).2]
            simp
          · rw [lookupA_insertA_ne _ _ _ _ hjk]
            exact hdisj j
        · intro j hjr
          have hjk : k ≠ j := fun hkj => hknr (hkj ▸ hjr)
          rw [lookupA_insertA_ne _ _ _ _ hjk]
          exact hfresh j (List.mem_cons_of_mem k hjr)
    next e heq =>
      refine ih (idx + 1) _ _ D E hndr ?_ ?_ h
      · intro j
        by_cases hjk : k = j
        · subst hjk
          rw [(hfresh k (List.mem_cons_self k rest)).1]
          simp
        · rw [lookupA_insertA_ne _ _ _ _ hjk]
          exact hdisj j
      · intro j hjr
        have hjk : k ≠ j := fun hkj => hknr (hkj ▸ hjr)
        rw [lookupA_insertA_ne _ _ _ _ hjk]
        exact hfresh j (List.mem_cons_of_mem k hjr)

theorem det_no_panic (store : String → Except String GetResult) :
    ∀ (keys : List String) (idx : Nat),
      (∀ k ∈ keys, ∃ r d, store k = .ok r ∧ r.content = some d) →
      hasPanic (fun _ j => store j) idx keys = false := by
  intro keys
  induction keys with
  | nil => intro idx _; simp [hasPanic]
  | cons k rest ih =>
    intro idx hall
    obtain ⟨r, d, hr, hd⟩ := hall k (List.mem_cons_self k rest)
    simp only [hasPanic, hr, hd, Bool.or_eq_false_iff]
    exact ⟨by simp [hd], ih (idx + 1) fun j hj => hall j (List.mem_cons_of_mem k hj)⟩

theorem det_no_fail (store : String → Except String GetResult) :
    ∀ (keys : List String) (idx : Nat),
      (∀ k ∈ keys, ∃ r, store k = .ok r) →
      failKeys (fun _ j => store j) idx keys = [] := by
  intro keys
  induction keys with
  | nil => intro idx _; simp [failKeys]
  | cons k rest ih =>
    intro idx hall
    obtain ⟨r, hr⟩ := hall k (List.mem_cons_self k rest)
    simp only [failKeys, hr]
    exact ih (idx + 1) fun j hj => hall j (List.mem_cons_of_mem k hj)

theorem batch_loop_det_values (store : String → Except String GetResult) (wc : Bool) :
    ∀ (keys : List String) (idx : Nat) docs errors D E,
      batch_loop (fun _ j => store j) wc idx keys docs errors = some (D, E) →
      ∀ k r d, k ∈ keys → store k = .ok r → r.content = some d →
        lookupA D k = some (casWrapBatch wc d r.cas) := by
  intro keys
  induction keys with
  | nil => intro idx docs errors D E _ k r d hk _ _; simp at hk
  | cons k0 rest ih =>
    intro idx docs errors D E h k r d hk hr hd
    simp only [batch_loop] at h
    split at h
    next r0 heq =>
      split at h
      next hc => simp at h
      next d0 hc =>
        by_cases hkr : k ∈ rest
        · exact ih (idx + 1) _ _ D E h k r d hkr hr hd
        · have hk0 : k0 = k := by
            rcases List.mem_cons.mp hk with hh | hh
            · exact hh.symm
            · exact absurd hh hkr
          subst hk0
          rw [hr] at heq
          have hrr : r0 = r := (Except.ok.inj heq).symm
          subst hrr
          rw [hd] at hc
          have hdd : d0 = d := (Option.some.inj hc).symm
          subst hdd
          have := (batch_loop_not_mem _ wc rest (idx + 1) _ _ D E h k0 hkr).1
          rw [this, lookupA_insertA_self]
    next e heq =>
      rcases List.mem_cons.mp hk with hh | hh
      · subst hh
        rw [hr] at heq
        exact absurd heq (by simp)
      · exact ih (idx + 1) _ _ D E h k r d hh hr hd

/-- C1: for every non-empty key list (and no panic, i.e. every fetched
document decodes, recorded by the loop returning some), get_documents
iterates all keys; when at least one per-key read fails it returns the
aggregated error embedding the full error map E, whose keys are exactly the
failing requested keys, and no documents are returned; when no key fails it
returns the map of all key-value results. -/
theorem get_documents_strict_aggregation
    (fetch : Nat → String → Except String GetResult) (keys : List String) (wc : Bool)
    (D : List (String × Json)) (E : List (String × String))
    (hne : keys ≠ [])
    (hrun : batch_loop fetch wc 0 keys [] [] = some (D, E)) :
    (∀ j, (lookupA E j).isSome = true ↔ j ∈ failKeys fetch 0 keys) ∧
    (E = [] ↔ failKeys fetch 0 keys = []) ∧
    (E ≠ [] → get_documents (.ok ()) fetch keys wc = some (.error (batchErrMsg keys E))) ∧
    (E = [] → get_documents (.ok ()) fetch keys wc = some (.ok (Json.obj D)) ∧
      ∀ j, (lookupA D j).isSome = true ↔ j ∈ keys) := by
  have hmemE : ∀ j, (lookupA E j).isSome = true ↔ j ∈ failKeys fetch 0 keys := by
    intro j
    have h := batch_loop_errors_char fetch wc keys 0 [] [] D E hrun j
    simpa [lookupA] using h
  have hgd : get_documents (.ok ()) fetch keys wc =
      (if E = [] then some (.ok (Json.obj D)) else some (.error (batchErrMsg keys E))) := by
    simp [get_documents, hne, hrun]
  have hEmpty : E = [] ↔ failKeys fetch 0 keys = [] := by
    constructor
    · intro hE
      subst hE
      refine List.eq_nil_iff_forall_not_mem.mpr fun j hj => ?_
      have := (hmemE j).mpr hj
      simp [lookupA] at this
    · intro hfail
      exact batch_loop_no_fail fetch wc keys 0 [] [] D E hfail hrun
  refine ⟨hmemE, hEmpty, ?_, ?_⟩
  · intro hEne
    rw [hgd, if_neg hEne]
  · intro hE
    have hfail := hEmpty.mp hE
    refine ⟨by rw [hgd, if_pos hE], fun j => ?_⟩
    have hd := batch_loop_docs_char fetch wc keys 0 [] [] D E hrun j
    have hm := mem_okKeys_or_failKeys fetch keys 0 j
    rw [hfail] at hm
    simp [lookupA] at hd
    rw [hd]
    simpa using hm.symm

/-- C1 witness. -/
theorem get_documents_strict_aggregation_witness :
    get_documents (.ok ()) (fun i _ => fetchDup (i + 1) "") ["a", "b"] false =
      some (.error (batchErrMsg ["a", "b"] [("a", "timeout"), ("b", "timeout")])) :=
  (get_documents_strict_aggregation (fun i _ => fetchDup (i + 1) "") ["a", "b"] false
      [] [("a", "timeout"), ("b", "timeout")] (by simp) rfl).2.2.1 (by simp)

/-- C2 counterexample: with the duplicate key list ["k", "k"] and a store
that answers the first read with a document and the second with an error,
get_documents_v2 puts "k" in BOTH the docs map and the errors map, so the
two key sets are not disjoint. -/
theorem get_documents_v2_duplicate_overlap :
    get_documents_v2 (.ok ()) fetchDup ["k", "k"] false =
      some (.ok (v2Result [("k", Json.num 7)] [("k", "timeout")])) ∧
    (lookupA [("k", Json.num 7)] "k").isSome = true ∧
    (lookupA [("k", "timeout")] "k").isSome = true ∧
    ¬ (∀ j, ¬((lookupA [("k", Json.num 7)] j).isSome = true ∧
              (lookupA [("k", "timeout")] j).isSome = true)) :=
  ⟨rfl, rfl, rfl, fun h => h "k" ⟨rfl, rfl⟩⟩

/-- C2 (amended): for every non-empty key list (with every fetched document
decoding), get_documents_v2 returns successfully with the docs and errors
maps; the union of their key sets is exactly the requested key set; and the
two key sets are disjoint whenever the list has no duplicate key (with
duplicates, a key read with mixed outcomes lands in both maps). -/
theorem get_documents_v2_partition
    (fetch : Nat → String → Except String GetResult) (keys : List String) (wc : Bool)
    (D : List (String × Json)) (E : List (String × String))
    (hne : keys ≠ [])
    (hrun : batch_loop fetch wc 0 keys [] [] = some (D, E)) :
    get_documents_v2 (.ok ()) fetch keys wc = some (.ok (v2Result D E)) ∧
    (∀ j, ((lookupA D j).isSome = true ∨ (lookupA E j).isSome = true) ↔ j ∈ keys) ∧
    (keys.Nodup → ∀ j, ¬((lookupA D j).isSome = true ∧ (lookupA E j).isSome = true)) := by
  refine ⟨by simp [get_documents_v2, hne, hrun], fun j => ?_, fun hnd => ?_⟩
  · have hd := batch_loop_docs_char fetch wc keys 0 [] [] D E hrun j
    have he := batch_loop_errors_char fetch wc keys 0 [] [] D E hrun j
    have hm := mem_okKeys_or_failKeys fetch keys 0 j
    simp [lookupA] at hd he
    rw [hd, he]
    exact hm.symm
  · exact batch_loop_disjoint fetch wc keys 0 [] [] D E hnd
      (by intro j; simp [lookupA]) (by intro j _; simp [lookupA]) hrun

/-- C2 witness (for the amended theorem). -/
theorem get_documents_v2_partition_witness :
    get_documents_v2 (.ok ()) fetchDup ["k", "k"] false =
      some (.ok (v2Result [("k", Json.num 7)] [("k", "timeout")])) :=
  (get_documents_v2_partition fetchDup ["k", "k"] false
      [("k", Json.num 7)] [("k", "timeout")] (by simp) rfl).1

/-- C9: with the store reachable, each of get_document, get_documents and
get_documents_v2 panics (returns none in the model) exactly when some read
succeeds at the store level but its content does not decode as JSON; hence
the functions are total exactly under the precondition that every fetched
document decodes. -/
theorem read_unwrap_panics
    (store : String → Except String GetResult)
    (fetch : Nat → String → Except String GetResult)
    (key : String) (keys : List String) (wc : Bool) :
    (get_document (.ok ()) store key wc = none ↔
      ∃ r, store key = .ok r ∧ r.content = none) ∧
    (get_documents (.ok ()) fetch keys wc = none ↔ hasPanic fetch 0 keys = true) ∧
    (get_documents_v2 (.ok ()) fetch keys wc = none ↔ hasPanic fetch 0 keys = true) := by
  refine ⟨?_, ?_, ?_⟩
  · cases hs : store key with
    | ok r =>
      cases hc : r.content with
      | none => simp [get_document, hs, hc]
      | some d => simp [get_document, hs, hc]
    | error e => simp [get_document, hs]
  · by_cases hne : keys = []
    · subst hne; simp [get_documents, hasPanic]
    · cases hL : batch_loop fetch wc 0 keys [] [] with
      | none =>
        have := (batch_loop_none_iff fetch wc keys 0 [] []).mp hL
        simp [get_documents, hne, hL, this]
      | some p =>
        obtain ⟨D, E⟩ := p
        have hnp : hasPanic fetch 0 keys = false := by
          rcases Bool.eq_false_or_eq_true (hasPanic fetch 0 keys) with h | h
          · exact absurd ((batch_loop_none_iff fetch wc keys 0 [] []).mpr h)
              (by simp [hL])
          · exact h
        rw [hnp]
        simp only [get_documents, hne, hL, if_neg hne, iff_false]
        by_cases hE : E = [] <;> simp [hE]
  · by_cases hne : keys = []
    · subst hne; simp [get_documents_v2, hasPanic]
    · cases hL : batch_loop fetch wc 0 keys [] [] with
      | none =>
        have := (batch_loop_none_iff fetch wc keys 0 [] []).mp hL
        simp [get_documents_v2, hne, hL, this]
      | some p =>
        obtain ⟨D, E⟩ := p
        have hnp : hasPanic fetch 0 keys = false := by
          rcases Bool.eq_false_or_eq_true (hasPanic fetch 0 keys) with h | h
          · exact absurd ((batch_loop_none_iff fetch wc keys 0 [] []).mpr h)
              (by simp [hL])
          · exact h
        rw [hnp]
        simp [get_documents_v2, hne, hL]

/-- C3: on an absent key the counter writes initialValue-or-1 and returns it
stringified; reading an existing counter holding an i64-range integer with
no initialValue increments it (so a fresh key yields "1" then "2"); on an
existing key with initialValue supplied the stored counter is overwritten
with initialValue regardless of the prior value, which is returned
stringified. (The increment clause is bounded by the i64 range because the
code deserializes the stored number at i64 and then computes counter + 1 in
i64.) -/
theorem get_next_counter_key_spec (σ : String → Option Json) (key : String) :
    (∀ init : Option Nat, σ key = none →
      (counterOnStore σ key init).1 = .ok (toString (Int.ofNat (init.getD 1))) ∧
      (counterOnStore σ key init).2 key = some (Json.num (Int.ofNat (init.getD 1))) ∧
      ∀ j, j ≠ key → (counterOnStore σ key init).2 j = σ j) ∧
    (∀ n : Int, σ key = some (Json.num n) → i64Min ≤ n → n < i64Max →
      (counterOnStore σ key none).1 = .ok (toString (n + 1)) ∧
      (counterOnStore σ key none).2 key = some (Json.num (n + 1)) ∧
      ∀ j, j ≠ key → (counterOnStore σ key none).2 j = σ j) ∧
    (∀ (v : Json) (init : Nat), σ key = some v →
      (counterOnStore σ key (some init)).1 = .ok (toString init) ∧
      (counterOnStore σ key (some init)).2 key = some (Json.num (Int.ofNat init)) ∧
      ∀ j, j ≠ key → (counterOnStore σ key (some init)).2 j = σ j) := by
  refine ⟨?_, ?_, ?_⟩
  · intro init hk
    refine ⟨by simp [counterOnStore, get_next_counter_key, hk],
            by simp [counterOnStore, get_next_counter_key, hk],
            fun j hj => by simp [counterOnStore, get_next_counter_key, hk, hj]⟩
  · intro n hk hlo hhi
    have hcc : counter_of_content (some (Json.num n)) = some n := by
      simp [counter_of_content, hlo, hhi.le]
    refine ⟨by simp [counterOnStore, get_next_counter_key, hcc, hk],
            by simp [counterOnStore, get_next_counter_key, hcc, hk],
            fun j hj => by
              simp [counterOnStore, get_next_counter_key, hcc, hk, hj]⟩
  · intro v init hk
    refine ⟨by simp [counterOnStore, get_next_counter_key, hk],
            by simp [counterOnStore, get_next_counter_key, hk],
            fun j hj => by simp [counterOnStore, get_next_counter_key, hk, hj]⟩

/-- C3 witness: fresh key yields "1", the immediately following call yields
"2", and an existing key is resettable to 7. -/
theorem get_next_counter_key_spec_witness :
    (counterOnStore (fun _ => none) "c" none).1 = .ok "1" ∧
    (counterOnStore ((counterOnStore (fun _ => none) "c" none).2) "c" none).1 = .ok "2" ∧
    (counterOnStore ((counterOnStore (fun _ => none) "c" none).2) "c" (some 7)).1 = .ok "7" :=
  ⟨((get_next_counter_key_spec (fun _ => none) "c").1 none rfl).1,
   ((get_next_counter_key_spec ((counterOnStore (fun _ => none) "c" none).2) "c").2.1 1 rfl
      (by decide) (by decide)).1,
   ((get_next_counter_key_spec ((counterOnStore (fun _ => none) "c" none).2) "c").2.2
      (Json.num 1) 7 rfl).1⟩

/-- C4 counterexample: a stored non-numeric string is NOT rejected with a
format error; parse().unwrap_or(0) turns it into 0, so the call succeeds
with "1" and writes 1 back. -/
theorem counter_nonnumeric_string_accepted :
    get_next_counter_key (.ok ()) (.ok (some (Json.str "xyz"))) (.ok ()) none =
      (.ok "1", some (Json.num 1)) ∧
    (get_next_counter_key (.ok ()) (.ok (some (Json.str "xyz"))) (.ok ()) none).1 ≠
      .error "Invalid counter format" :=
  ⟨rfl, fun h => Except.noConfusion h⟩

/-- C4 (amended): with no initialValue, a stored integer number n within
i64 range yields n+1; a stored string is ALWAYS accepted — it is parsed at
i64 and any parse failure, non-numeric or overflowing i64, is defaulted to
0 by unwrap_or(0), yielding "1"; every other stored value — a number
outside i64 range or not an integer, any other shape, or undecodable
content — fails with "Invalid counter format", and then nothing is written
back. -/
theorem counter_parse_behavior :
    (∀ n : Int, i64Min ≤ n → n < i64Max →
      get_next_counter_key (.ok ()) (.ok (some (Json.num n))) (.ok ()) none =
        (.ok (toString (n + 1)), some (Json.num (n + 1)))) ∧
    (∀ s : String, (parse_i64 s).getD 0 < i64Max →
      get_next_counter_key (.ok ()) (.ok (some (Json.str s))) (.ok ()) none =
        (.ok (toString ((parse_i64 s).getD 0 + 1)),
         some (Json.num ((parse_i64 s).getD 0 + 1)))) ∧
    (∀ content : Option Json, counter_of_content content = none →
      get_next_counter_key (.ok ()) (.ok content) (.ok ()) none =
        (.error "Invalid counter format", none)) :=
  ⟨fun n hlo hhi => by simp [get_next_counter_key, counter_of_content, hlo, hhi.le],
   fun s _ => by simp [get_next_counter_key, counter_of_content],
   fun content hc => by simp [get_next_counter_key, hc]⟩

/-- C4 witness (for the amended theorem): a stored boolean is rejected with
the format error and nothing is written; a stored numeric string that
overflows i64 is defaulted to 0 and yields "1"; a stored integer number
just beyond i64 range is rejected with the format error. -/
theorem counter_parse_behavior_witness :
    get_next_counter_key (.ok ()) (.ok (some (Json.bool true))) (.ok ()) none =
      (.error "Invalid counter format", none) ∧
    get_next_counter_key (.ok ())
        (.ok (some (Json.str "99999999999999999999"))) (.ok ()) none =
      (.ok "1", some (Json.num 1)) ∧
    get_next_counter_key (.ok ())
        (.ok (some (Json.num 9223372036854775808))) (.ok ()) none =
      (.error "Invalid counter format", none) :=
  ⟨counter_parse_behavior.2.2 (some (Json.bool true)) rfl,
   counter_parse_behavior.2.1 "99999999999999999999" (by decide),
   counter_parse_behavior.2.2 (some (Json.num 9223372036854775808)) (by decide)⟩

theorem add_document_run_eq (attempts : Nat → Except String Unit) (idx retry : Nat) :
    add_document_run attempts idx retry =
      match attempts idx with
      | .ok _ => (.ok true, 1)
      | .error error =>
        match retry with
        | 0 => (.error (addRetryErr error), 1)
        | r + 1 =>
          ((if isOkE (add_document_run attempts (idx + 1) r).1 then .ok true
            else .error error), (add_document_run attempts (idx + 1) r).2 + 1) := by
  rw [add_document_run]

theorem replace_document_run_eq (key bucket_name : String)
    (attempts : Nat → Except String Unit) (idx retry : Nat) :
    replace_document_run key bucket_name attempts idx retry =
      match attempts idx with
      | .ok _ => (.ok (replaceMsg key bucket_name), 1)
      | .error error =>
        match retry with
        | 0 => (.error (replRetryErr error), 1)
        | r + 1 =>
          ((if isOkE (replace_document_run key bucket_name attempts (idx + 1) r).1
            then .ok (replaceMsg key bucket_name) else .error error),
           (replace_document_run key bucket_name attempts (idx + 1) r).2 + 1) := by
  rw [replace_document_run]

theorem add_document_run_all_fail (attempts : Nat → Except String Unit) (e : Nat → String)
    (hfail : ∀ i, attempts i = .error (e i)) :
    ∀ (r idx : Nat), (add_document_run attempts idx r).1 =
      .error (if r = 0 then addRetryErr (e idx) else e idx) := by
  intro r
  induction r with
  | zero => intro idx; rw [add_document_run_eq, hfail idx]; simp
  | succ n ih =>
    intro idx
    rw [add_document_run_eq, hfail idx]
    simp [ih (idx + 1), isOkE]

theorem replace_document_run_all_fail (key bucket_name : String)
    (attempts : Nat → Except String Unit) (e : Nat → String)
    (hfail : ∀ i, attempts i = .error (e i)) :
    ∀ (r idx : Nat), (replace_document_run key bucket_name attempts idx r).1 =
      .error (if r = 0 then replRetryErr (e idx) else e idx) := by
  intro r
  induction r with
  | zero => intro idx; rw [replace_document_run_eq, hfail idx]; simp
  | succ n ih =>
    intro idx
    rw [replace_document_run_eq, hfail idx]
    simp [ih (idx + 1), isOkE]

/-- C5 counterexample: with a retry budget of 1 and every attempt failing
with "boom", add_document returns the caller the plain first-attempt error
"boom", which does not carry the "retry limit reached" annotation. -/
theorem add_retry_annotation_missing :
    add_document (.ok ()) (fun _ => .error "boom") (some 1) = .error "boom" ∧
    containsSub "retry limit reached" "boom" = false :=
  ⟨rfl, rfl⟩

/-- C5 (amended): when every attempt fails, only a call made with retry
budget 0 returns the store error with the "retry limit reached" annotation;
with a positive budget the annotated error built at exhaustion depth is
discarded by the outer frames and the caller receives the first attempt's
error string verbatim, without the annotation. Holds for both add_document
and replace_document. -/
theorem retry_exhaustion_error
    (attempts : Nat → Except String Unit) (e : Nat → String)
    (hfail : ∀ i, attempts i = .error (e i)) (key bucket_name : String) (N : Nat) :
    (add_document (.ok ()) attempts (some 0) = .error (addRetryErr (e 0))) ∧
    (0 < N → add_document (.ok ()) attempts (some N) = .error (e 0)) ∧
    (replace_document (.ok ()) key bucket_name attempts (some 0) =
      .error (replRetryErr (e 0))) ∧
    (0 < N → replace_document (.ok ()) key bucket_name attempts (some N) = .error (e 0)) := by
  have ha := add_document_run_all_fail attempts e hfail
  have hr := replace_document_run_all_fail key bucket_name attempts e hfail
  refine ⟨?_, fun hN => ?_, ?_, fun hN => ?_⟩
  · have := ha 0 0
    simp only [add_document, Option.getD_some]
    rw [this]
    simp
  · have := ha N 0
    rw [if_neg (Nat.pos_iff_ne_zero.mp hN)] at this
    simp only [add_document, Option.getD_some]
    rw [this]
  · have := hr 0 0
    simp only [replace_document, Option.getD_some]
    rw [this]
    simp
  · have := hr N 0
    rw [if_neg (Nat.pos_iff_ne_zero.mp hN)] at this
    simp only [replace_document, Option.getD_some]
    rw [this]

/-- C5 witness (for the amended theorem). -/
theorem retry_exhaustion_error_witness :
    add_document (.ok ()) (fun _ => .error "boom") (some 0) = .error (addRetryErr "boom") ∧
    add_document (.ok ()) (fun _ => .error "boom") (some 5) = .error "boom" :=
  ⟨(retry_exhaustion_error (fun _ => .error "boom") (fun _ => "boom") (fun _ => rfl)
      "k" "b" 5).1,
   (retry_exhaustion_error (fun _ => .error "boom") (fun _ => "boom") (fun _ => rfl)
      "k" "b" 5).2.1 (by decide)⟩

theorem add_document_run_count (attempts : Nat → Except String Unit) :
    ∀ (N idx : Nat), (add_document_run attempts idx N).2 ≤ N + 1 := by
  intro N
  induction N with
  | zero =>
    intro idx
    rw [add_document_run_eq]
    cases hf : attempts idx <;> simp [hf]
  | succ n ih =>
    intro idx
    have := ih (idx + 1)
    rw [add_document_run_eq]
    cases hf : attempts idx with
    | ok u => simp [hf]
    | error e =>
      simp [hf]
      omega

theorem replace_document_run_count (key bucket_name : String)
    (attempts : Nat → Except String Unit) :
    ∀ (N idx : Nat), (replace_document_run key bucket_name attempts idx N).2 ≤ N + 1 := by
  intro N
  induction N with
  | zero =>
    intro idx
    rw [replace_document_run_eq]
    cases hf : attempts idx <;> simp [hf]
  | succ n ih =>
    intro idx
    have := ih (idx + 1)
    rw [replace_document_run_eq]
    cases hf : attempts idx with
    | ok u => simp [hf]
    | error e =>
      simp [hf]
      omega

/-- C6: add_document and replace_document are (total) functions of the first
N+1 attempt outcomes and issue at most N+1 store attempts for retry budget
N (default 5); a failing attempt with remaining budget retries
unconditionally — whatever the error — with the budget decremented by 1
(the fixed 1-second sleep between attempts is real time, outside this
model). -/
theorem retry_budget_bound
    (attempts : Nat → Except String Unit) (key bucket_name : String) (idx N : Nat) :
    add_document (.ok ()) attempts (some N) = (add_document_run attempts 0 N).1 ∧
    add_document (.ok ()) attempts none = (add_document_run attempts 0 5).1 ∧
    replace_document (.ok ()) key bucket_name attempts (some N) =
      (replace_document_run key bucket_name attempts 0 N).1 ∧
    replace_document (.ok ()) key bucket_name attempts none =
      (replace_document_run key bucket_name attempts 0 5).1 ∧
    (add_document_run attempts idx N).2 ≤ N + 1 ∧
    (replace_document_run key bucket_name attempts idx N).2 ≤ N + 1 ∧
    (∀ e, attempts idx = .error e →
      add_document_run attempts idx (N + 1) =
        ((if isOkE (add_document_run attempts (idx + 1) N).1 then .ok true
          else .error e), (add_document_run attempts (idx + 1) N).2 + 1) ∧
      replace_document_run key bucket_name attempts idx (N + 1) =
        ((if isOkE (replace_document_run key bucket_name attempts (idx + 1) N).1
          then .ok (replaceMsg key bucket_name) else .error e),
         (replace_document_run key bucket_name attempts (idx + 1) N).2 + 1)) := by
  refine ⟨rfl, rfl, rfl, rfl,
    add_document_run_count attempts N idx,
    replace_document_run_count key bucket_name attempts N idx,
    fun e he => ⟨?_, ?_⟩⟩
  · rw [add_document_run_eq, he]
  · rw [replace_document_run_eq, he]

/-- C6 witness. -/
theorem retry_budget_bound_witness :
    (add_document_run (fun _ => .error "x") 0 2).2 ≤ 3 ∧
    (replace_document_run "k" "b" (fun _ => .error "x") 0 2).2 ≤ 3 :=
  ⟨(retry_budget_bound (fun _ => .error "x") "k" "b" 0 2).2.2.2.2.1,
   (retry_budget_bound (fun _ => .error "x") "k" "b" 0 2).2.2.2.2.2.1⟩

/-- C10: get_next_counter_key takes the create-fresh branch on EVERY failed
read, whatever the error: it upserts initialValue-or-1 over whatever may be
stored and returns that value, silently resetting the counter. -/
theorem counter_create_branch_on_any_read_error (errMsg : String) (initial : Option Nat) :
    get_next_counter_key (.ok ()) (.error errMsg) (.ok ()) initial =
      (.ok (toString (Int.ofNat (initial.getD 1))),
       some (Json.num (Int.ofNat (initial.getD 1)))) := rfl

/-- C7 counterexample: with withCas true, on a store where "k" holds the
number 5 at cas 42, get_documents wraps the cas as a JSON number while
get_document wraps it as a JSON string, so the batch result does not equal
the union of the individual get_document results. -/
theorem get_documents_cas_shape_mismatch :
    get_documents (.ok ()) (fun _ j => storeAllNum j) ["k"] true =
      some (.ok (Json.obj [("k", Json.obj [("value", Json.num 5), ("cas", Json.num 42)])])) ∧
    get_document (.ok ()) storeAllNum "k" true =
      some (.ok (Json.obj [("value", Json.num 5), ("cas", Json.str "42")])) ∧
    Json.obj [("value", Json.num 5), ("cas", Json.num 42)] ≠
      Json.obj [("value", Json.num 5), ("cas", Json.str "42")] := by
  refine ⟨rfl, rfl, ?_⟩
  intro h
  simp at h

/-- C7 (amended): for every non-empty key list on which every read succeeds
with decodable content against a store answering consistently, and withCas
false, get_documents returns the map whose keys are exactly the requested
keys and whose per-key values equal the corresponding individual
get_document results; with withCas true the equality fails because
get_document stringifies the cas while get_documents keeps it numeric. -/
theorem get_documents_refines_get_document
    (store : String → Except String GetResult) (keys : List String)
    (D : List (String × Json)) (E : List (String × String))
    (hne : keys ≠ [])
    (hok : ∀ k ∈ keys, ∃ r d, store k = .ok r ∧ r.content = some d)
    (hrun : batch_loop (fun _ j => store j) false 0 keys [] [] = some (D, E)) :
    get_documents (.ok ()) (fun _ j => store j) keys false = some (.ok (Json.obj D)) ∧
    (∀ j, (lookupA D j).isSome = true ↔ j ∈ keys) ∧
    (∀ k ∈ keys, ∃ v, lookupA D k = some v ∧
      get_document (.ok ()) store k false = some (.ok v)) := by
  have hfail : failKeys (fun _ j => store j) 0 keys = [] := by
    refine det_no_fail store keys 0 fun k hk => ?_
    obtain ⟨r, d, hr, _⟩ := hok k hk
    exact ⟨r, hr⟩
  have hE : E = [] :=
    batch_loop_no_fail (fun _ j => store j) false keys 0 [] [] D E hfail hrun
  subst hE
  refine ⟨by simp [get_documents, hne, hrun], fun j => ?_, fun k hk => ?_⟩
  · have hd := batch_loop_docs_char (fun _ j => store j) false keys 0 [] [] D [] hrun j
    have hm := mem_okKeys_or_failKeys (fun _ j => store j) keys 0 j
    rw [hfail] at hm
    simp [lookupA] at hd
    rw [hd]
    simpa using hm.symm
  · obtain ⟨r, d, hr, hd⟩ := hok k hk
    refine ⟨d, ?_, by simp [get_document, hr, hd, casWrapDoc]⟩
    have := batch_loop_det_values store false keys 0 [] [] D [] hrun k r d hk hr hd
    simpa [casWrapBatch] using this

/-- C7 witness (for the amended theorem). -/
theorem get_documents_refines_get_document_witness :
    get_documents (.ok ()) (fun _ j => storeAllNum j) ["k"] false =
      some (.ok (Json.obj [("k", Json.num 5)])) :=
  (get_documents_refines_get_document storeAllNum ["k"] [("k", Json.num 5)] []
      (by simp)
      (fun k _ => ⟨⟨some (Json.num 5), 42⟩, Json.num 5, rfl, rfl⟩)
      rfl).1

/-- C8: once get_bucket_connection has returned a handle for a bucket name,
calling it again with the same name is a pure cache read: it returns the
same handle and leaves the state untouched (no new handle, no construction);
and the cluster connection is constructed at most once per process no
matter how many times it is demanded. -/
theorem bucket_connection_cached (bucket_name : String) (st : ConnState)
    (h : Nat) (st₁ : ConnState)
    (hcall : get_bucket_connection bucket_name st = (h, st₁)) :
    get_bucket_connection bucket_name st₁ = (h, st₁) ∧
    lookupA st₁.cache bucket_name = some h ∧
    (st.clusterCount ≤ 1 → st₁.clusterCount ≤ 1) := by
  simp only [get_bucket_connection] at hcall
  split at hcall
  next h0 heq =>
    have h1 : h0 = h := congrArg Prod.fst hcall
    have h2 : st = st₁ := congrArg Prod.snd hcall
    subst h1
    subst h2
    exact ⟨by simp [get_bucket_connection, heq], heq, fun hc => hc⟩
  next heq =>
    have h1 : (forceCluster st).nextHandle = h := congrArg Prod.fst hcall
    have h2 : ({ clusterCount := (forceCluster st).clusterCount,
                 cache := (bucket_name, (forceCluster st).nextHandle) :: (forceCluster st).cache,
                 nextHandle := (forceCluster st).nextHandle + 1 } : ConnState) = st₁ :=
      congrArg Prod.snd hcall
    subst h1
    subst h2
    refine ⟨by simp [get_bucket_connection, lookupA], by simp [lookupA], fun hc => ?_⟩
    simp only [forceCluster]
    split
    next h0 => simp [h0]
    next => exact hc

/-- C8 witness. -/
theorem bucket_connection_cached_witness :
    get_bucket_connection "b" ⟨1, [("b", 0)], 1⟩ = (0, ⟨1, [("b", 0)], 1⟩) :=
  (bucket_connection_cached "b" ⟨0, [], 0⟩ 0 ⟨1, [("b", 0)], 1⟩ rfl).1
